import Mathlib

/-!
Verification of the UNO deck engine (`src/uno/engine/deck.py`).

The deck is a `collections.deque` of cards with the front of the deque as the
top of the deck (`popleft` draws, `append` adds to the bottom, `appendleft`
adds to the top).  We embed it as a `List Card` whose head is the top card.
Stateful methods become functions returning the updated list (paired with the
method's return value where it has one); methods that raise `ValueError`
return `Except String`.
-/

namespace UnoDeck

/-- Modelled from the spec: the `card` module is not in the repository.
Card colors are "a fixed small enum, or a wild sentinel"; the deck's
standard colors are RED, BLUE, GREEN, YELLOW and wild cards carry the
WILD sentinel color. -/
inductive CardColor where
  | RED
  | BLUE
  | GREEN
  | YELLOW
  | WILD
deriving DecidableEq

/-- Modelled from the spec: a card label is "number 0-9, one of a fixed set
of action kinds, or one of a fixed set of wild kinds".  The deck code names
the action kinds SKIP, REVERSE, DRAW_TWO and the wild kinds WILD,
WILD_DRAW_FOUR. -/
inductive CardLabel where
  | num (n : Nat)
  | SKIP
  | REVERSE
  | DRAW_TWO
  | WILD
  | WILD_DRAW_FOUR
deriving DecidableEq

/-- Modelled from the spec: a Card has a color attribute and a label/kind
attribute; the deck consumes it opaquely. -/
structure Card where
  color : CardColor
  label : CardLabel
deriving DecidableEq

/-- Modelled from the spec: the derived predicate "is a number card". -/
def Card.is_number_card (c : Card) : Bool :=
  match c.label with
  | .num _ => true
  | _ => false

/-- Modelled from the spec: the derived predicate "is an action card". -/
def Card.is_action_card (c : Card) : Bool :=
  match c.label with
  | .SKIP => true
  | .REVERSE => true
  | .DRAW_TWO => true
  | _ => false

/-- Modelled from the spec: the derived predicate "is wild". -/
def Card.is_wild (c : Card) : Bool :=
  match c.label with
  | .WILD => true
  | .WILD_DRAW_FOUR => true
  | _ => false

/-- Modelled from the spec: `CardFactory.create_number_card(color, number)`. -/
def create_number_card (color : CardColor) (n : Nat) : Card :=
  ⟨color, .num n⟩

/-- Modelled from the spec: `CardFactory.create_action_card(color, action)`. -/
def create_action_card (color : CardColor) (action : CardLabel) : Card :=
  ⟨color, action⟩

/-- Modelled from the spec: `CardFactory.create_wild_card(wild_type)`; wild
cards carry the wild sentinel color. -/
def create_wild_card (wild_type : CardLabel) : Card :=
  ⟨.WILD, wild_type⟩

/-- A deck is the deque's contents, head = top (next to draw). -/
abbrev Deck := List Card

/-- `Deck._COLORS`. -/
def _COLORS : List CardColor := [.RED, .BLUE, .GREEN, .YELLOW]

/-- `Deck._ACTIONS`. -/
def _ACTIONS : List CardLabel := [.SKIP, .REVERSE, .DRAW_TWO]

/-- `Deck._WILDS`. -/
def _WILDS : List CardLabel := [.WILD, .WILD_DRAW_FOUR]

/-- `Deck._initialize_standard_deck`: one 0 plus two each of 1-9 per color,
then two of each action per color, then four of each wild kind, in the
source's construction order. -/
def _initialize_standard_deck : Deck :=
  (_COLORS.flatMap fun color =>
    create_number_card color 0 ::
      ((List.range 9).flatMap fun k =>
        [create_number_card color (k + 1), create_number_card color (k + 1)]))
  ++ (_COLORS.flatMap fun color =>
      _ACTIONS.flatMap fun action =>
        [create_action_card color action, create_action_card color action])
  ++ (_WILDS.flatMap fun wild_type =>
      List.replicate 4 (create_wild_card wild_type))

/-- `Deck.__init__(initialize)`; the flag selects the standard 108-card
composition, otherwise the deck starts empty. -/
def Deck.new (standard : Bool) : Deck :=
  if standard then _initialize_standard_deck else []

/-- `Deck.size` / `len`. -/
def size (d : Deck) : Nat := d.length

/-- `Deck.is_empty`. -/
def is_empty (d : Deck) : Bool := d.length == 0

/-- `Deck.draw(count)`: validates `count`, then pops `count` cards off the
front.  Returns the drawn cards (or the `ValueError` message) together with
the deck's state after the call. -/
def draw (count : Int) (d : Deck) : Except String (List Card) × Deck :=
  if count < 0 then
    (.error "Cannot draw negative number of cards", d)
  else if (d.length : Int) < count then
    (.error "Cannot draw more cards than the deck holds", d)
  else
    (.ok (d.take count.toNat), d.drop count.toNat)

/-- `Deck.draw_one()`: `None` on an empty deck, otherwise `popleft`. -/
def draw_one (d : Deck) : Option Card × Deck :=
  match d with
  | [] => (none, [])
  | c :: rest => (some c, rest)

/-- `Deck.add_card(card)`: `deque.append`, i.e. to the bottom. -/
def add_card (card : Card) (d : Deck) : Deck := d ++ [card]

/-- `Deck.add_cards(cards)`: `deque.extend`, i.e. appended at the bottom. -/
def add_cards (cards : List Card) (d : Deck) : Deck := d ++ cards

/-- `Deck.add_to_top(card)`: `deque.appendleft`. -/
def add_to_top (card : Card) (d : Deck) : Deck := card :: d

/-- `Deck.add_cards_to_top(cards)`: `appendleft` each card of the input in
reversed order. -/
def add_cards_to_top (cards : List Card) (d : Deck) : Deck :=
  cards.reverse.foldl (fun acc card => add_to_top card acc) d

/-- `Deck.peek(count)`: validates `count`, then returns the first `count`
cards of the deque without mutating it. -/
def peek (count : Int) (d : Deck) : Except String (List Card) × Deck :=
  if count < 0 then
    (.error "Cannot peek negative number of cards", d)
  else if (d.length : Int) < count then
    (.error "Cannot peek at more cards than the deck holds", d)
  else
    (.ok (d.take count.toNat), d)

/-- `Deck.clear()`. -/
def clear (_ : Deck) : Deck := []

/-- `create_empty_deck()`. -/
def create_empty_deck : Deck := Deck.new false

/-- `merge_decks(deck1, deck2)`: a fresh empty deck, `add_cards` of
`deck1`'s contents, then `add_cards` of `deck2`'s contents. -/
def merge_decks (deck1 deck2 : Deck) : Deck :=
  add_cards deck2 (add_cards deck1 create_empty_deck)

/-- Whether an `Except` result is a raised failure. -/
def isError {ε α : Type} : Except ε α → Bool
  | .error _ => true
  | .ok _ => false

/-- One step of `deque.rotate` to the right: `d.appendleft(d.pop())`. -/
def rotRight1 {α : Type} (l : List α) : List α :=
  match l.getLast? with
  | none => l
  | some x => x :: l.dropLast

/-- One step of `deque.rotate` to the left: `d.append(d.popleft())`. -/
def rotLeft1 {α : Type} (l : List α) : List α :=
  match l with
  | [] => []
  | x :: xs => xs ++ [x]

/-- `Deck.rotate(positions)` = `deque.rotate(positions)`: positive values
rotate right (bottom cards move to the top), negative values rotate left,
one step at a time. -/
def rotate (positions : Int) (d : Deck) : Deck :=
  if 0 ≤ positions then
    rotRight1^[positions.toNat] d
  else
    rotLeft1^[(-positions).toNat] d

/-- `x[i], x[j] = x[j], x[i]` on the temporary list used by
`random.shuffle`. -/
def swapAt {α : Type} (l : List α) (i j : Nat) : List α :=
  match l[i]?, l[j]? with
  | some a, some b => (l.set i b).set j a
  | _, _ => l

/-- The Fisher-Yates loop of `random.shuffle`: for `i` from `n-1` down to
`1`, pick `j = randbelow(i+1)` and swap positions `i` and `j`.  The
randomness source is an arbitrary function `r`; `r i % (i+1)` models any
admissible value of `randbelow(i+1)`. -/
def shuffleGo {α : Type} (r : Nat → Nat) : Nat → List α → List α
  | 0, l => l
  | i + 1, l => shuffleGo r i (swapAt l (i + 1) (r (i + 1) % (i + 2)))

/-- `Deck.shuffle()`: copy the deque to a list, `random.shuffle` it, and
replace the deque's contents with the result. -/
def shuffle (r : Nat → Nat) (d : Deck) : Deck :=
  shuffleGo r (d.length - 1) d

/-- The result of `Deck.get_card_distribution`, with the two Python dicts
`by_color` / `by_label` embedded as count functions. -/
structure Distribution where
  total : Nat
  number_cards : Nat
  action_cards : Nat
  wild_cards : Nat
  by_color : CardColor → Nat
  by_label : CardLabel → Nat

/-- The body of the `for card in self._cards` loop of
`get_card_distribution`: bump the card's color and label counters, then the
first matching bucket of the `if`/`elif` chain (number, then action, then
wild). -/
def distStep (dist : Distribution) (card : Card) : Distribution :=
  let dist :=
    { dist with
      by_color := fun c => if c = card.color then dist.by_color c + 1 else dist.by_color c,
      by_label := fun l => if l = card.label then dist.by_label l + 1 else dist.by_label l }
  if card.is_number_card then
    { dist with number_cards := dist.number_cards + 1 }
  else if card.is_action_card then
    { dist with action_cards := dist.action_cards + 1 }
  else if card.is_wild then
    { dist with wild_cards := dist.wild_cards + 1 }
  else
    dist

/-- `Deck.get_card_distribution()`: start every counter at zero (`total`
is `size()`), then run the loop over the deque front to back. -/
def get_card_distribution (d : Deck) : Distribution :=
  d.foldl distStep
    { total := d.length
      number_cards := 0
      action_cards := 0
      wild_cards := 0
      by_color := fun _ => 0
      by_label := fun _ => 0 }

/-! ## Helper lemmas -/

theorem foldl_add_to_top (cs : List Card) (d : Deck) :
    cs.foldl (fun acc card => add_to_top card acc) d = cs.reverse ++ d := by
  induction cs generalizing d with
  | nil => rfl
  | cons c cs ih => simp [List.foldl_cons, add_to_top, ih]

theorem add_cards_to_top_eq (cs : List Card) (d : Deck) :
    add_cards_to_top cs d = cs ++ d := by
  unfold add_cards_to_top
  rw [foldl_add_to_top, List.reverse_reverse]

/-! ## Claim theorems -/

/-- C1: after `add_cards_to_top(cards)` the deck reads, top to bottom, as the
input list in its original order followed by the previous contents in their
previous order; in particular `add_cards_to_top([c1, c2])` then `draw(2)`
returns `[c1, c2]` and leaves the previous contents intact. -/
theorem add_cards_to_top_order (cs d : List Card) (c1 c2 : Card) :
    add_cards_to_top cs d = cs ++ d ∧
    (draw 2 (add_cards_to_top [c1, c2] d)).1 = .ok [c1, c2] ∧
    (draw 2 (add_cards_to_top [c1, c2] d)).2 = d := by
  refine ⟨add_cards_to_top_eq cs d, ?_, ?_⟩ <;>
  · rw [add_cards_to_top_eq]
    unfold draw
    rw [if_neg (by norm_num), if_neg (by simp [List.length_append]; omega)]
    rfl

/-- C3: `draw(count)` and `peek(count)` raise `ValueError` exactly when
`count < 0` or `count > size()`, and the deck's contents are unchanged
whenever they fail (`peek` never changes them at all). -/
theorem draw_peek_range_check (count : Int) (d : Deck) :
    (isError (draw count d).1 = true ↔ count < 0 ∨ (d.length : Int) < count) ∧
    (isError (peek count d).1 = true ↔ count < 0 ∨ (d.length : Int) < count) ∧
    (draw count d).2 =
      (if count < 0 ∨ (d.length : Int) < count then d else d.drop count.toNat) ∧
    (peek count d).2 = d := by
  unfold draw peek isError
  split_ifs with h1 h2 <;> simp_all <;> omega

/-- C4: for `0 ≤ count ≤ size()`, `draw(count)` returns exactly the `count`
top cards in top-to-bottom order, the remaining cards keep their order (the
original deck is the drawn cards followed by the remainder), the size drops
by exactly `count`, and `draw(0)` returns `[]` and changes nothing. -/
theorem draw_in_range (count : Int) (d : Deck)
    (h0 : 0 ≤ count) (hn : count ≤ (d.length : Int)) :
    (draw count d).1 = .ok (d.take count.toNat) ∧
    (d.take count.toNat).length = count.toNat ∧
    d = d.take count.toNat ++ (draw count d).2 ∧
    ((draw count d).2).length + count.toNat = d.length ∧
    draw 0 d = (.ok [], d) := by
  have hzero : draw 0 d = (.ok [], d) := by
    unfold draw
    rw [if_neg (by norm_num), if_neg (by omega)]
    rfl
  have hle : count.toNat ≤ d.length := by omega
  unfold draw
  rw [if_neg (by omega), if_neg (by omega)]
  refine ⟨rfl, List.length_take_of_le hle, (List.take_append_drop _ d).symm, ?_, hzero⟩
  simp [List.length_drop]
  omega

/-- C5: `draw_one()` on an empty deck returns `None` without failing and
leaves the deck unchanged; on a nonempty deck it removes and returns exactly
the former top card, keeping the rest in order. -/
theorem draw_one_top (d : Deck) (c : Card) (rest : List Card) :
    draw_one ([] : Deck) = (none, ([] : Deck)) ∧
    draw_one (c :: rest) = (some c, rest) ∧
    draw_one d = (d.head?, d.tail) := by
    refine ⟨rfl, rfl, ?_⟩
    cases d <;> rfl

/-- Witness for `draw_in_range` at `count = 2` on a three-card deck. -/
theorem draw_in_range_witness :
    (0 : Int) ≤ 2 ∧ (2 : Int) ≤ (([create_number_card .RED 1,
      create_number_card .BLUE 2, create_number_card .GREEN 3] : Deck).length : Int) ∧
    ((draw 2 [create_number_card .RED 1, create_number_card .BLUE 2,
        create_number_card .GREEN 3]).1 =
      .ok ([create_number_card .RED 1, create_number_card .BLUE 2,
        create_number_card .GREEN 3].take (2 : Int).toNat) ∧
    (([create_number_card .RED 1, create_number_card .BLUE 2,
        create_number_card .GREEN 3] : Deck).take (2 : Int).toNat).length = (2 : Int).toNat ∧
    ([create_number_card .RED 1, create_number_card .BLUE 2,
        create_number_card .GREEN 3] : Deck) =
      ([create_number_card .RED 1, create_number_card .BLUE 2,
        create_number_card .GREEN 3] : Deck).take (2 : Int).toNat ++
        (draw 2 [create_number_card .RED 1, create_number_card .BLUE 2,
          create_number_card .GREEN 3]).2 ∧
    ((draw 2 [create_number_card .RED 1, create_number_card .BLUE 2,
        create_number_card .GREEN 3]).2).length + (2 : Int).toNat =
      ([create_number_card .RED 1, create_number_card .BLUE 2,
        create_number_card .GREEN 3] : Deck).length ∧
    draw 0 [create_number_card .RED 1, create_number_card .BLUE 2,
        create_number_card .GREEN 3] =
      (.ok [], [create_number_card .RED 1, create_number_card .BLUE 2,
        create_number_card .GREEN 3])) :=
  ⟨by decide, by decide,
    draw_in_range 2 [create_number_card .RED 1, create_number_card .BLUE 2,
      create_number_card .GREEN 3] (by decide) (by decide)⟩

/-- C6: for `0 ≤ count ≤ size()`, `peek(count)` leaves the deck unchanged
and returns exactly what `draw(count)` would return, and `draw(count)`
followed by `add_cards_to_top` of the drawn cards restores the original
deck. -/
theorem peek_draw_round_trip (count : Int) (d : Deck)
    (h0 : 0 ≤ count) (hn : count ≤ (d.length : Int)) :
    (peek count d).1 = (draw count d).1 ∧
    (peek count d).2 = d ∧
    (draw count d).1 = .ok (d.take count.toNat) ∧
    add_cards_to_top (d.take count.toNat) ((draw count d).2) = d := by
  unfold draw peek
  rw [if_neg (by omega), if_neg (by omega), if_neg (by omega), if_neg (by omega)]
  exact ⟨rfl, rfl, rfl, by rw [add_cards_to_top_eq]; exact List.take_append_drop _ d⟩

/-- Witness for `peek_draw_round_trip` at `count = 1` on a two-card deck. -/
theorem peek_draw_round_trip_witness :
    (0 : Int) ≤ 1 ∧
    (1 : Int) ≤ (([create_wild_card .WILD, create_number_card .RED 5] : Deck).length : Int) ∧
    ((peek 1 [create_wild_card .WILD, create_number_card .RED 5]).1 =
      (draw 1 [create_wild_card .WILD, create_number_card .RED 5]).1 ∧
    (peek 1 [create_wild_card .WILD, create_number_card .RED 5]).2 =
      [create_wild_card .WILD, create_number_card .RED 5] ∧
    (draw 1 [create_wild_card .WILD, create_number_card .RED 5]).1 =
      .ok (([create_wild_card .WILD, create_number_card .RED 5] : Deck).take (1 : Int).toNat) ∧
    add_cards_to_top
      (([create_wild_card .WILD, create_number_card .RED 5] : Deck).take (1 : Int).toNat)
      ((draw 1 [create_wild_card .WILD, create_number_card .RED 5]).2) =
      [create_wild_card .WILD, create_number_card .RED 5]) :=
  ⟨by decide, by decide,
    peek_draw_round_trip 1 [create_wild_card .WILD, create_number_card .RED 5]
      (by decide) (by decide)⟩

/-- C9: `merge_decks(a, b)` is a new deck reading, top to bottom, as `a`'s
cards in order followed by `b`'s cards in order; its size is
`a.size() + b.size()` and drawing `a.size()` cards from it yields `a`'s
former contents, leaving `b`'s.  (The embedding is pure: the source builds
the result in a fresh empty deck and copies `a` and `b` via `list(...)`,
mutating neither.) -/
theorem merge_decks_order (a b : Deck) :
    merge_decks a b = a ++ b ∧
    (merge_decks a b).length = a.length + b.length ∧
    (draw (a.length : Int) (merge_decks a b)).1 = .ok a ∧
    (draw (a.length : Int) (merge_decks a b)).2 = b := by
  have hmerge : merge_decks a b = a ++ b := by
    simp [merge_decks, add_cards, create_empty_deck, Deck.new]
  refine ⟨hmerge, by simp [hmerge], ?_, ?_⟩
  · rw [hmerge]
    unfold draw
    rw [if_neg (by omega), if_neg (by simp [List.length_append])]
    simp [Int.toNat_natCast, List.take_left]
  · rw [hmerge]
    unfold draw
    rw [if_neg (by omega), if_neg (by simp [List.length_append])]
    simp [Int.toNat_natCast, List.drop_left]

set_option maxRecDepth 100000 in
/-- C2 counterexample: on the standard-initialized deck,
`get_card_distribution` reports 25 cards of color RED, not the claimed 27
(each standard color has 19 number cards and 6 action cards; the 8 wild
cards are tallied under the wild sentinel color). -/
theorem standard_distribution_red_ne_27 :
    ¬ ((get_card_distribution (Deck.new true)).by_color CardColor.RED = 27) := by
  decide

set_option maxRecDepth 100000 in
/-- C2 (amended): the standard-initialized deck has size 108 and its
distribution reports 76 number cards, 24 action cards, 8 wild cards, and 25
cards for each of the 4 standard colors, with the wild cards counted
separately from the per-color totals (under the wild sentinel color). -/
theorem standard_deck_distribution :
    (Deck.new true).length = 108 ∧
    (get_card_distribution (Deck.new true)).total = 108 ∧
    (get_card_distribution (Deck.new true)).number_cards = 76 ∧
    (get_card_distribution (Deck.new true)).action_cards = 24 ∧
    (get_card_distribution (Deck.new true)).wild_cards = 8 ∧
    (get_card_distribution (Deck.new true)).by_color CardColor.RED = 25 ∧
    (get_card_distribution (Deck.new true)).by_color CardColor.BLUE = 25 ∧
    (get_card_distribution (Deck.new true)).by_color CardColor.GREEN = 25 ∧
    (get_card_distribution (Deck.new true)).by_color CardColor.YELLOW = 25 ∧
    (get_card_distribution (Deck.new true)).by_color CardColor.WILD = 8 := by
  refine ⟨rfl, rfl, rfl, rfl, rfl, rfl, rfl, rfl, rfl, rfl⟩

theorem foldl_dist_total (d : List Card) (acc : Distribution) :
    (d.foldl distStep acc).total = acc.total := by
  induction d generalizing acc with
  | nil => rfl
  | cons c d ih =>
    rw [List.foldl_cons, ih]
    unfold distStep
    by_cases h1 : c.is_number_card <;> by_cases h2 : c.is_action_card <;>
      by_cases h3 : c.is_wild <;> simp [h1, h2, h3]

theorem foldl_dist_number (d : List Card) (acc : Distribution) :
    (d.foldl distStep acc).number_cards =
      acc.number_cards + d.countP (fun c => c.is_number_card) := by
  induction d generalizing acc with
  | nil => simp
  | cons c d ih =>
    rw [List.foldl_cons, ih, List.countP_cons]
    unfold distStep
    by_cases h1 : c.is_number_card <;> by_cases h2 : c.is_action_card <;>
      by_cases h3 : c.is_wild <;> simp [h1, h2, h3] <;> omega

theorem foldl_dist_action (d : List Card) (acc : Distribution) :
    (d.foldl distStep acc).action_cards =
      acc.action_cards + d.countP (fun c => !c.is_number_card && c.is_action_card) := by
  induction d generalizing acc with
  | nil => simp
  | cons c d ih =>
    rw [List.foldl_cons, ih, List.countP_cons]
    unfold distStep
    by_cases h1 : c.is_number_card <;> by_cases h2 : c.is_action_card <;>
      by_cases h3 : c.is_wild <;> simp [h1, h2, h3] <;> omega

theorem foldl_dist_wild (d : List Card) (acc : Distribution) :
    (d.foldl distStep acc).wild_cards =
      acc.wild_cards +
        d.countP (fun c => !c.is_number_card && !c.is_action_card && c.is_wild) := by
  induction d generalizing acc with
  | nil => simp
  | cons c d ih =>
    rw [List.foldl_cons, ih, List.countP_cons]
    unfold distStep
    by_cases h1 : c.is_number_card <;> by_cases h2 : c.is_action_card <;>
      by_cases h3 : c.is_wild <;> simp [h1, h2, h3] <;> omega

theorem countP_three_buckets (d : List Card) :
    d.countP (fun c => c.is_number_card) +
      d.countP (fun c => !c.is_number_card && c.is_action_card) +
      d.countP (fun c => !c.is_number_card && !c.is_action_card && c.is_wild) =
    d.countP (fun c => c.is_number_card || c.is_action_card || c.is_wild) := by
  induction d with
  | nil => rfl
  | cons c d ih =>
    simp only [List.countP_cons]
    by_cases h1 : c.is_number_card <;> by_cases h2 : c.is_action_card <;>
      by_cases h3 : c.is_wild <;> simp [h1, h2, h3] <;> omega

/-- C10: on every deck, the distribution's three type buckets classify each
card by the first matching predicate of the `if`/`elif` chain (number, then
action, then wild), so each card lands in at most one bucket; hence the
bucket sum never exceeds `total`, with equality exactly when every card in
the deck satisfies at least one of the three predicates. -/
theorem distribution_buckets (d : Deck) :
    (get_card_distribution d).number_cards = d.countP (fun c => c.is_number_card) ∧
    (get_card_distribution d).action_cards =
      d.countP (fun c => !c.is_number_card && c.is_action_card) ∧
    (get_card_distribution d).wild_cards =
      d.countP (fun c => !c.is_number_card && !c.is_action_card && c.is_wild) ∧
    (get_card_distribution d).number_cards + (get_card_distribution d).action_cards +
        (get_card_distribution d).wild_cards ≤ (get_card_distribution d).total ∧
    ((get_card_distribution d).number_cards + (get_card_distribution d).action_cards +
        (get_card_distribution d).wild_cards = (get_card_distribution d).total ↔
      ∀ c ∈ d, (c.is_number_card || c.is_action_card || c.is_wild) = true) := by
  have hn : (get_card_distribution d).number_cards =
      d.countP (fun c => c.is_number_card) := by
    unfold get_card_distribution
    simp [foldl_dist_number]
  have ha : (get_card_distribution d).action_cards =
      d.countP (fun c => !c.is_number_card && c.is_action_card) := by
    unfold get_card_distribution
    simp [foldl_dist_action]
  have hw : (get_card_distribution d).wild_cards =
      d.countP (fun c => !c.is_number_card && !c.is_action_card && c.is_wild) := by
    unfold get_card_distribution
    simp [foldl_dist_wild]
  have ht : (get_card_distribution d).total = d.length := by
    unfold get_card_distribution
    simp [foldl_dist_total]
  refine ⟨hn, ha, hw, ?_, ?_⟩
  · rw [hn, ha, hw, ht, countP_three_buckets]
    exact List.countP_le_length _
  · rw [hn, ha, hw, ht, countP_three_buckets]
    constructor
    · intro h c hc
      exact List.countP_eq_length.mp h c hc
    · intro h
      exact List.countP_eq_length.mpr h

theorem rotLeft1_rotRight1 {α : Type} (l : List α) : rotLeft1 (rotRight1 l) = l := by
  unfold rotRight1
  cases h : l.getLast? with
  | none =>
    rw [List.getLast?_eq_none_iff] at h
    subst h
    rfl
  | some x =>
    unfold rotLeft1
    exact List.dropLast_append_getLast? x h

theorem rotRight1_rotLeft1 {α : Type} (l : List α) : rotRight1 (rotLeft1 l) = l := by
  cases l with
  | nil => rfl
  | cons x xs =>
    show rotRight1 (xs ++ [x]) = x :: xs
    unfold rotRight1
    rw [List.getLast?_concat, List.dropLast_concat]

theorem rotRight1_length {α : Type} (l : List α) : (rotRight1 l).length = l.length := by
  unfold rotRight1
  cases h : l.getLast? with
  | none => rfl
  | some x =>
    have hne : l ≠ [] := by
      intro hnil
      subst hnil
      simp at h
    have hpos : 0 < l.length := List.length_pos.mpr hne
    simp [List.length_dropLast]
    omega

theorem rotLeft1_eq_rotate {α : Type} (l : List α) : rotLeft1 l = l.rotate 1 := by
  cases l with
  | nil => rfl
  | cons x xs =>
    show xs ++ [x] = (x :: xs).rotate 1
    rw [show (1 : Nat) = 0 + 1 from rfl, List.rotate_cons_succ, List.rotate_zero]

theorem rotLeft1_iterate {α : Type} (n : Nat) (l : List α) :
    rotLeft1^[n] l = l.rotate n := by
  induction n generalizing l with
  | zero => simp
  | succ n ih =>
    rw [Function.iterate_succ_apply, ih, rotLeft1_eq_rotate, List.rotate_rotate,
      Nat.add_comm]

theorem rotLeft1_iterate_length {α : Type} (l : List α) :
    rotLeft1^[l.length] l = l := by
  rw [rotLeft1_iterate, List.rotate_length]

theorem rotRight1_iterate_length {α : Type} (l : List α) :
    rotRight1^[l.length] l = l := by
  have hlen : ∀ (k : Nat) (m : List α), (rotRight1^[k] m).length = m.length := by
    intro k
    induction k with
    | zero => intro m; rfl
    | succ k ih =>
      intro m
      rw [Function.iterate_succ_apply, ih, rotRight1_length]
  have h1 : rotLeft1^[l.length] (rotRight1^[l.length] l) = l :=
    Function.LeftInverse.iterate rotLeft1_rotRight1 l.length l
  have h2 := rotLeft1_iterate_length (rotRight1^[l.length] l)
  rw [hlen] at h2
  exact h2.symm.trans h1

/-- C8: `rotate(k)` is total for every integer `k` (it is rotation, a no-op
on the empty deck and modulo `n` in effect): `rotate(0)` and `rotate(n)`
leave the order unchanged, and `rotate(k)` followed by `rotate(-k)` restores
the original order. -/
theorem rotate_round_trip (k : Int) (l : Deck) :
    rotate 0 l = l ∧
    rotate (l.length : Int) l = l ∧
    rotate (-k) (rotate k l) = l := by
  refine ⟨rfl, ?_, ?_⟩
  · unfold rotate
    rw [if_pos (by omega)]
    rw [show ((l.length : Int)).toNat = l.length from Int.toNat_natCast _]
    exact rotRight1_iterate_length l
  · rcases lt_trichotomy k 0 with hk | hk | hk
    · unfold rotate
      rw [if_neg (show ¬ ((0 : Int) ≤ k) by omega),
        if_pos (show (0 : Int) ≤ -k by omega)]
      exact Function.LeftInverse.iterate rotRight1_rotLeft1 (-k).toNat l
    · subst hk
      rfl
    · unfold rotate
      rw [if_pos (show (0 : Int) ≤ k by omega),
        if_neg (show ¬ ((0 : Int) ≤ -k) by omega), neg_neg]
      exact Function.LeftInverse.iterate rotLeft1_rotRight1 k.toNat l

theorem cons_set_perm {α : Type} {xs : List α} {k : Nat} {b : α}
    (h : xs[k]? = some b) (c : α) : (b :: xs.set k c).Perm (c :: xs) := by
  induction xs generalizing k with
  | nil => simp at h
  | cons y ys ih =>
    cases k with
    | zero =>
      rw [List.getElem?_cons_zero] at h
      injection h with h
      subst h
      exact List.Perm.swap c y ys
    | succ m =>
      rw [List.getElem?_cons_succ] at h
      rw [List.set_cons_succ]
      exact ((List.Perm.swap y b _).trans ((ih h).cons y)).trans (List.Perm.swap c y ys)

theorem set_set_perm {α : Type} {xs : List α} {i j : Nat} {a b : α}
    (ha : xs[i]? = some a) (hb : xs[j]? = some b) :
    ((xs.set i b).set j a).Perm xs := by
  induction xs generalizing i j with
  | nil => simp at ha
  | cons x xs ih =>
    cases i with
    | zero =>
      rw [List.getElem?_cons_zero] at ha
      injection ha with ha
      subst ha
      cases j with
      | zero =>
        rw [List.getElem?_cons_zero] at hb
        injection hb with hb
        subst hb
        exact List.Perm.refl _
      | succ m =>
        rw [List.getElem?_cons_succ] at hb
        rw [List.set_cons_zero, List.set_cons_succ]
        exact cons_set_perm hb x
    | succ k =>
      rw [List.getElem?_cons_succ] at ha
      cases j with
      | zero =>
        rw [List.getElem?_cons_zero] at hb
        injection hb with hb
        subst hb
        rw [List.set_cons_succ, List.set_cons_zero]
        exact cons_set_perm ha x
      | succ m =>
        rw [List.getElem?_cons_succ] at hb
        rw [List.set_cons_succ, List.set_cons_succ]
        exact (ih ha hb).cons x

theorem swapAt_perm {α : Type} (l : List α) (i j : Nat) :
    (swapAt l i j).Perm l := by
  unfold swapAt
  split
  · next a b hi hj => exact set_set_perm hi hj
  · exact List.Perm.refl l

theorem shuffleGo_perm {α : Type} (r : Nat → Nat) (n : Nat) (l : List α) :
    (shuffleGo r n l).Perm l := by
  induction n generalizing l with
  | zero => exact List.Perm.refl l
  | succ n ih =>
    exact (ih _).trans (swapAt_perm l (n + 1) (r (n + 1) % (n + 2)))

/-- C7: for every behaviour of the randomness source, `shuffle()` replaces
the deck's order with a permutation of its current contents: the multiset of
cards and the size are exactly what they were before. -/
theorem shuffle_permutation (r : Nat → Nat) (d : Deck) :
    (shuffle r d).Perm d ∧
    (shuffle r d).length = d.length ∧
    (↑(shuffle r d) : Multiset Card) = (↑d : Multiset Card) := by
  have hp : (shuffle r d).Perm d := shuffleGo_perm r _ d
  exact ⟨hp, hp.length_eq, Multiset.coe_eq_coe.mpr hp⟩

end UnoDeck
